import Mathlib

/-!
Shallow embedding of the `serializable_enum` crate (src/lib.rs).

The crate provides two macros:

* `impl_as_ref_from_str!` generates, for an enum bound to a variant→token
  map, an `AsRef<str>` impl (`as_ref`: a `match` over the variants in
  declaration order returning the bound token) and a `FromStr` impl
  (`from_str`: a `match` over the token string literals in declaration
  order, falling through to an error built by the caller-supplied
  single-argument error constructor with message
  "`<input>` is not a known `<EnumName>` variant").

* `serde_visitor!` (invoked by `serializable_enum!`) generates a serde
  `Serialize` impl that serializes `self.as_ref()` (a plain string
  scalar), and a `Visitor` whose `visit_str` trims the incoming string,
  delegates to `from_str`, and on failure reports
  `serde::de::Error::unknown_field(e.to_string(), VARIANTS)` where
  `VARIANTS` is the list of stringified variant identifiers.

We embed a generated binding as a token map `tm : List (α × String)`
(declaration order), the enum's name, the list of stringified variant
identifiers, and the caller's error constructor.  Rust `match` arms over
a list of patterns are first-match-wins, which `List.find?` models
exactly.
-/

deriving instance DecidableEq for Except

/-- Model of Rust's `str::trim`: removes leading and trailing whitespace.
Defined by structural recursion over the character list (Rust trims by
Unicode `White_Space`; the inputs in this development only involve ASCII
whitespace, where `Char.isWhitespace` agrees). -/
def rustTrim (s : String) : String :=
  String.mk (List.reverse (List.dropWhile Char.isWhitespace
    (List.reverse (List.dropWhile Char.isWhitespace s.data))))

/-- A fragment of the serde JSON-like data model: enough to distinguish the
plain string scalar produced by the generated `Serialize` impl from the
tagged-object form `{"VariantName":[]}` that serde would produce by default. -/
inductive JValue where
  | str : String → JValue
  | arr : List JValue → JValue
  | obj : List (String × JValue) → JValue

/-- Model of `serde::de::Error::unknown_field(field, expected)`: the error
carries the offending field string and the expected name list. -/
inductive SerdeError where
  | unknownField : String → List String → SerdeError
deriving DecidableEq

/-- The caller-supplied error type used throughout the crate's tests and
examples: `enum Error { Parse(String) }`. -/
inductive Error where
  | Parse : String → Error
deriving DecidableEq

/-- The `Display` impl the crate's tests and example give `Error`:
`write!(f, "{:?}", self)`, i.e. the `Debug` rendering `Parse("<msg>")`. -/
def Error.display : Error → String
  | Error.Parse m => ("Parse(\"" ++ m ++ "\")")

/-- The parse-failure message built by the generated `from_str`:
`format!("`{}` is not a known `{}` variant", s, stringify!($name))`. -/
def parseMsg (s name : String) : String :=
  ("`" ++ s ++ "` is not a known `" ++ name ++ "` variant")

/-- The generated `AsRef<str>::as_ref`: `match *self { V1 => t1, V2 => t2, … }`.
The match arms appear in declaration order of the map, so the first pair
whose variant equals `v` wins; `none` corresponds to a non-exhaustive match,
which rustc rejects at compile time (every declared variant is covered). -/
def as_ref {α : Type} [DecidableEq α] (tm : List (α × String)) (v : α) : Option String :=
  (tm.find? (fun p => decide (p.1 = v))).map Prod.snd

/-- The generated `FromStr::from_str`:
`match s { t1 => Ok(V1), t2 => Ok(V2), …, _ => Err($err::$err_variant(format!(…))) }`.
String literal patterns in declaration order, first match wins, exact and
case-sensitive comparison, no trimming; the fallthrough arm applies the
caller-supplied one-argument error constructor `mkErr` to `parseMsg`. -/
def from_str {α ε : Type} (mkErr : String → ε) (name : String)
    (tm : List (α × String)) (s : String) : Except ε α :=
  match tm.find? (fun p => decide (p.2 = s)) with
  | some p => Except.ok p.1
  | none => Except.error (mkErr (parseMsg s name))

/-- The generated `Visitor::visit_str`: `match s.trim().parse::<$name>() {
Ok(t) => Ok(t), Err(e) => Err(Error::unknown_field(&e.to_string(), VARIANTS)) }`.
`errToString` is the caller error type's `Display`; `variantNames` is the
generated `VARIANTS` constant `&[stringify!($variant), …]`, the stringified
variant identifiers of the enum declaration. -/
def visit_str {α ε : Type} (mkErr : String → ε) (errToString : ε → String)
    (name : String) (tm : List (α × String)) (variantNames : List String)
    (s : String) : Except SerdeError α :=
  match from_str mkErr name tm (rustTrim s) with
  | Except.ok t => Except.ok t
  | Except.error e => Except.error (SerdeError.unknownField (errToString e) variantNames)

/-- The generated `Serialize::serialize`: `self.as_ref().serialize(serializer)`.
Serializing a `&str` through serde yields a plain string scalar, so the
wire value is `JValue.str` of the projected token. -/
def serialize {α : Type} [DecidableEq α] (tm : List (α × String)) (v : α) : Option JValue :=
  (as_ref tm v).map JValue.str

/-- The enum bound in the crate's example and tests:
`pub enum ContentFormat { Markdown, Html }`. -/
inductive ContentFormat where
  | Markdown
  | Html
deriving DecidableEq

/-- The token map of the example/tests:
`ContentFormat { Markdown => "markdown", Html => "html" } Error::Parse`. -/
def ContentFormat.tokenMap : List (ContentFormat × String) :=
  [(ContentFormat.Markdown, "markdown"), (ContentFormat.Html, "html")]

/-- The generated `VARIANTS` constant for `ContentFormat`:
`&[stringify!(Markdown), stringify!(Html)]`. -/
def ContentFormat.VARIANTS : List String := ["Markdown", "Html"]

/-- `stringify!(ContentFormat)`, the enum name interpolated into the
parse-failure message. -/
def cfName : String := "ContentFormat"

/-- A bound enum with a duplicated token, which the macros accept without
validation: `Dup { A => "x", B => "x" }`. -/
inductive Dup where
  | A
  | B
deriving DecidableEq

/-- Token map binding both variants of `Dup` to the same token `"x"`. -/
def Dup.tokenMap : List (Dup × String) :=
  [(Dup.A, "x"), (Dup.B, "x")]

/-- `stringify!(Dup)`. -/
def dupName : String := "Dup"

/-- A bound enum whose single variant is bound to the empty token, which the
macros accept without validation: `EmptyTok { OnlyV => "" }`. -/
inductive EmptyTok where
  | OnlyV
deriving DecidableEq

/-- Token map binding `OnlyV` to the empty string. -/
def EmptyTok.tokenMap : List (EmptyTok × String) :=
  [(EmptyTok.OnlyV, "")]

/-! ## Helper lemmas about the generated `as_ref` and `from_str` -/

/-- If `as_ref` projects `v` to `t`, then some declared pair binds `v` to `t`. -/
theorem as_ref_mem {α : Type} [DecidableEq α] {tm : List (α × String)} {v : α} {t : String}
    (h : as_ref tm v = some t) : ∃ p ∈ tm, p.1 = v ∧ p.2 = t := by
  unfold as_ref at h
  cases hf : tm.find? (fun p => decide (p.1 = v)) with
  | none => rw [hf] at h; simp at h
  | some p =>
    rw [hf] at h
    have ht : p.2 = t := by simpa using h
    exact ⟨p, List.mem_of_find?_eq_some hf, by simpa using List.find?_some hf, ht⟩

/-- A variant covered by the match (as rustc's exhaustiveness requires)
always projects to some token. -/
theorem as_ref_total {α : Type} [DecidableEq α] {tm : List (α × String)} {v : α}
    (h : v ∈ tm.map Prod.fst) : ∃ t, as_ref tm v = some t := by
  obtain ⟨p, hp, hv⟩ := List.mem_map.mp h
  have hs : (tm.find? (fun p => decide (p.1 = v))).isSome := by
    rw [List.find?_isSome]
    exact ⟨p, hp, by simpa using hv⟩
  obtain ⟨q, hq⟩ := Option.isSome_iff_exists.mp hs
  exact ⟨q.2, by unfold as_ref; rw [hq]; rfl⟩

/-- If `from_str` succeeds with `v`, some declared pair binds `v` to the input. -/
theorem from_str_ok {α ε : Type} {mkErr : String → ε} {name : String}
    {tm : List (α × String)} {s : String} {v : α}
    (h : from_str mkErr name tm s = Except.ok v) : ∃ p ∈ tm, p.2 = s ∧ p.1 = v := by
  unfold from_str at h
  cases hf : tm.find? (fun p => decide (p.2 = s)) with
  | none => rw [hf] at h; simp at h
  | some p =>
    rw [hf] at h
    simp only [Except.ok.injEq] at h
    exact ⟨p, List.mem_of_find?_eq_some hf, by simpa using List.find?_some hf, h⟩

/-- When the input matches no declared token, `from_str` falls through to the
error arm with the formatted message. -/
theorem from_str_fail {α ε : Type} {mkErr : String → ε} {name : String}
    {tm : List (α × String)} {s : String}
    (hfail : s ∉ tm.map Prod.snd) :
    from_str mkErr name tm s = Except.error (mkErr (parseMsg s name)) := by
  unfold from_str
  have hnone : tm.find? (fun p => decide (p.2 = s)) = none := by
    rw [List.find?_eq_none]
    intro p hp
    simp only [decide_eq_true_eq]
    intro hps
    exact hfail (List.mem_map.mpr ⟨p, hp, hps⟩)
  rw [hnone]

/-- `as_ref` on a cons whose head matches the variant. -/
theorem as_ref_cons_pos {α : Type} [DecidableEq α] {p : α × String} {tm : List (α × String)}
    {v : α} (h : p.1 = v) : as_ref (p :: tm) v = some p.2 := by
  unfold as_ref
  rw [List.find?_cons_of_pos tm (by simpa using h)]
  rfl

/-- `as_ref` skips a head arm whose variant does not match. -/
theorem as_ref_cons_neg {α : Type} [DecidableEq α] {p : α × String} {tm : List (α × String)}
    {v : α} (h : p.1 ≠ v) : as_ref (p :: tm) v = as_ref tm v := by
  unfold as_ref
  rw [List.find?_cons_of_neg tm (by simpa using h)]

/-- `from_str` on a cons whose head token matches the input. -/
theorem from_str_cons_pos {α ε : Type} {mkErr : String → ε} {name : String}
    {p : α × String} {tm : List (α × String)} {s : String}
    (h : p.2 = s) : from_str mkErr name (p :: tm) s = Except.ok p.1 := by
  unfold from_str
  rw [List.find?_cons_of_pos tm (by simpa using h)]

/-- `from_str` skips a head arm whose token does not match. -/
theorem from_str_cons_neg {α ε : Type} {mkErr : String → ε} {name : String}
    {p : α × String} {tm : List (α × String)} {s : String}
    (h : p.2 ≠ s) : from_str mkErr name (p :: tm) s = from_str mkErr name tm s := by
  unfold from_str
  rw [List.find?_cons_of_neg tm (by simpa using h)]

/-! ## Claim theorems -/

/-- Claim C1, counterexample: the claim quantifies over every enum bound by the
macros, but the macros do not validate token uniqueness; in the bound enum
`Dup { A => "x", B => "x" }` the variant `B` projects to `"x"`, yet parsing
`"x"` returns `A`, so `from_str (as_ref B) = Ok A ≠ Ok B`. -/
theorem c1_counterexample :
    as_ref Dup.tokenMap Dup.B = some ("x")
    ∧ from_str Error.Parse dupName Dup.tokenMap ("x") = Except.ok Dup.A
    ∧ Dup.A ≠ Dup.B := by decide

/-- Claim C1 (amended): for every declared variant `v` of a bound enum whose
declared tokens are pairwise distinct (the data model's should-hold
invariant), parsing the variant's canonical token returns that same variant:
`from_str (as_ref v) = Ok v`. -/
theorem c1_round_trip {α ε : Type} [DecidableEq α] (mkErr : String → ε) (name : String)
    (tm : List (α × String)) (v : α)
    (hmem : v ∈ tm.map Prod.fst)
    (hnodup : (tm.map Prod.snd).Nodup) :
    ∃ t, as_ref tm v = some t ∧ from_str mkErr name tm t = Except.ok v := by
  induction tm with
  | nil => simp at hmem
  | cons p rest ih =>
    by_cases hp : p.1 = v
    · refine ⟨p.2, as_ref_cons_pos hp, ?_⟩
      rw [from_str_cons_pos rfl, hp]
    · have hmem2 : v ∈ rest.map Prod.fst := by
        rcases List.mem_map.mp hmem with ⟨q, hq, hqv⟩
        cases hq with
        | head => exact absurd hqv hp
        | tail _ hq2 => exact List.mem_map.mpr ⟨q, hq2, hqv⟩
      rw [List.map_cons, List.nodup_cons] at hnodup
      obtain ⟨t, h1, h2⟩ := ih hmem2 hnodup.2
      have htm : t ∈ rest.map Prod.snd := by
        obtain ⟨q, hq, _, hqt⟩ := as_ref_mem h1
        exact List.mem_map.mpr ⟨q, hq, hqt⟩
      have hps : p.2 ≠ t := fun he => hnodup.1 (he ▸ htm)
      exact ⟨t, by rw [as_ref_cons_neg hp]; exact h1,
        by rw [from_str_cons_neg hps]; exact h2⟩

/-- Claim C1 witness: instantiated for `ContentFormat::Markdown` with the
example's token map. -/
theorem c1_round_trip_witness :
    ∃ t, as_ref ContentFormat.tokenMap ContentFormat.Markdown = some t
      ∧ from_str Error.Parse cfName ContentFormat.tokenMap t
          = Except.ok ContentFormat.Markdown :=
  c1_round_trip Error.Parse cfName ContentFormat.tokenMap ContentFormat.Markdown
    (by decide) (by decide)

/-- Claim C2, counterexample: on a failed deserialization the adapter attaches
the stringified variant identifiers `["Markdown", "Html"]` as the allow-list,
and that list differs from the token-map right-hand sides
`["markdown", "html"]` that the claim names. -/
theorem c2_counterexample :
    visit_str Error.Parse Error.display cfName ContentFormat.tokenMap
        ContentFormat.VARIANTS ("pdf")
      = Except.error (SerdeError.unknownField
          ("Parse(\"`pdf` is not a known `ContentFormat` variant\")")
          (["Markdown", "Html"]))
    ∧ (["Markdown", "Html"] : List String) ≠ ContentFormat.tokenMap.map Prod.snd := by
  decide

/-- Claim C2 (amended): when deserialization of a string fails, the adapter
translates the parse error into the framework's unknown-value error
(`serde::de::Error::unknown_field`) and attaches, as diagnostic context, the
generated `VARIANTS` allow-list, which holds the stringified variant
identifiers of the enum declaration (e.g. "Markdown", "Html"), not the
canonical tokens. -/
theorem c2_unknown_value_translation {α ε : Type} (mkErr : String → ε)
    (errToString : ε → String) (name : String) (tm : List (α × String))
    (variantNames : List String) (s : String)
    (hfail : rustTrim s ∉ tm.map Prod.snd) :
    visit_str mkErr errToString name tm variantNames s
      = Except.error (SerdeError.unknownField
          (errToString (mkErr (parseMsg (rustTrim s) name))) variantNames) := by
  unfold visit_str
  rw [from_str_fail hfail]

/-- Claim C2 witness: instantiated at the wire string "pdf" for
`ContentFormat`. -/
theorem c2_unknown_value_translation_witness :
    visit_str Error.Parse Error.display cfName ContentFormat.tokenMap
        ContentFormat.VARIANTS ("pdf")
      = Except.error (SerdeError.unknownField
          (Error.display (Error.Parse (parseMsg (rustTrim ("pdf")) cfName)))
          ContentFormat.VARIANTS) :=
  c2_unknown_value_translation Error.Parse Error.display cfName ContentFormat.tokenMap
    ContentFormat.VARIANTS ("pdf") (by decide)

/-- Claim C3: the generated `from_str` matches its input exactly and
case-sensitively against the declared tokens with no trimming: it succeeds
iff the input is character-for-character equal to some declared token; in
particular, for `ContentFormat` (token "markdown") the inputs "Markdown"
and " markdown " both fail. -/
theorem c3_exact_case_sensitive_match :
    (∀ {α ε : Type} (mkErr : String → ε) (name : String) (tm : List (α × String))
        (s : String),
      (∃ v, from_str mkErr name tm s = Except.ok v) ↔ s ∈ tm.map Prod.snd)
    ∧ from_str Error.Parse cfName ContentFormat.tokenMap ("Markdown")
        = Except.error (Error.Parse (parseMsg ("Markdown") cfName))
    ∧ from_str Error.Parse cfName ContentFormat.tokenMap (" markdown ")
        = Except.error (Error.Parse (parseMsg (" markdown ") cfName)) := by
  refine ⟨?_, by decide, by decide⟩
  intro α ε mkErr name tm s
  constructor
  · rintro ⟨v, hv⟩
    obtain ⟨p, hp, hs, _⟩ := from_str_ok hv
    exact List.mem_map.mpr ⟨p, hp, hs⟩
  · intro hs
    obtain ⟨p, hp, hps⟩ := List.mem_map.mp hs
    have hsome : (tm.find? (fun p => decide (p.2 = s))).isSome := by
      rw [List.find?_isSome]
      exact ⟨p, hp, by simpa using hps⟩
    obtain ⟨q, hq⟩ := Option.isSome_iff_exists.mp hsome
    refine ⟨q.1, ?_⟩
    unfold from_str
    rw [hq]

/-- Claim C4: for every input matching no declared token, `from_str` fails
with an error built by the caller-supplied one-argument constructor whose
message is exactly "`<input>` is not a known `<EnumName>` variant", with the
literal input and the enum name interpolated. -/
theorem c4_unknown_token_error {α ε : Type} (mkErr : String → ε) (name : String)
    (tm : List (α × String)) (s : String)
    (hfail : s ∉ tm.map Prod.snd) :
    from_str mkErr name tm s
      = Except.error (mkErr ("`" ++ s ++ "` is not a known `" ++ name ++ "` variant")) :=
  from_str_fail hfail

/-- Claim C4 witness: instantiated at the input "not-a-token" for
`ContentFormat`, with the message spelled out. -/
theorem c4_unknown_token_error_witness :
    from_str Error.Parse cfName ContentFormat.tokenMap ("not-a-token")
      = Except.error (Error.Parse
          ("`" ++ ("not-a-token") ++ "` is not a known `" ++ cfName ++ "` variant")) :=
  c4_unknown_token_error Error.Parse cfName ContentFormat.tokenMap ("not-a-token")
    (by decide)

/-- Claim C5: the deserializer adapter trims leading and trailing whitespace
before delegating, while the parser itself does not: `visit_str` on
" markdown " yields `Markdown`, whereas `from_str` on " markdown " fails. -/
theorem c5_adapter_trims_parser_does_not :
    visit_str Error.Parse Error.display cfName ContentFormat.tokenMap
        ContentFormat.VARIANTS (" markdown ")
      = Except.ok ContentFormat.Markdown
    ∧ from_str Error.Parse cfName ContentFormat.tokenMap (" markdown ")
      = Except.error (Error.Parse (parseMsg (" markdown ") cfName)) := by
  decide

/-- Claim C6: for every variant with a projected token, the generated
`Serialize` impl produces the plain scalar string equal to that token,
never an object form. -/
theorem c6_serialize_scalar {α : Type} [DecidableEq α] (tm : List (α × String))
    (v : α) (t : String) (ht : as_ref tm v = some t) :
    serialize tm v = some (JValue.str t)
      ∧ ∀ l : List (String × JValue), serialize tm v ≠ some (JValue.obj l) := by
  have hser : serialize tm v = some (JValue.str t) := by
    unfold serialize
    rw [ht]
    rfl
  refine ⟨hser, ?_⟩
  intro l h
  rw [hser] at h
  injection h with h2
  exact JValue.noConfusion h2

/-- Claim C6 witness: serializing `ContentFormat::Markdown` yields exactly the
string scalar "markdown" and no object form. -/
theorem c6_serialize_scalar_witness :
    serialize ContentFormat.tokenMap ContentFormat.Markdown
        = some (JValue.str ("markdown"))
      ∧ ∀ l : List (String × JValue),
        serialize ContentFormat.tokenMap ContentFormat.Markdown
          ≠ some (JValue.obj l) :=
  c6_serialize_scalar ContentFormat.tokenMap ContentFormat.Markdown ("markdown")
    (by decide)

/-- Claim C7, counterexample: the macros do not constrain declared tokens, so
a bound enum may map a variant to the empty string; its projector then
returns an empty token, refuting the claim that the returned token is
always non-empty. -/
theorem c7_counterexample :
    as_ref EmptyTok.tokenMap EmptyTok.OnlyV = some ("")
    ∧ ("" : String).length = 0 := by decide

/-- Claim C7 (amended): the generated `as_ref` is total — every variant
covered by the match projects to exactly one token, namely the one its first
declared pair binds — and that token is non-empty whenever all declared
tokens are non-empty (which the macro itself does not enforce). -/
theorem c7_projector_total {α : Type} [DecidableEq α] (tm : List (α × String))
    (v : α) (hmem : v ∈ tm.map Prod.fst) :
    ∃ t, as_ref tm v = some t ∧ (v, t) ∈ tm
      ∧ ((∀ p ∈ tm, p.2 ≠ ("")) → t ≠ ("")) := by
  obtain ⟨t, ht⟩ := as_ref_total hmem
  obtain ⟨p, hp, hpv, hpt⟩ := as_ref_mem ht
  refine ⟨t, ht, ?_, ?_⟩
  · rw [← hpv, ← hpt]
    simpa using hp
  · intro hne
    rw [← hpt]
    exact hne p hp

/-- Claim C7 witness: instantiated for `ContentFormat::Html`. -/
theorem c7_projector_total_witness :
    ∃ t, as_ref ContentFormat.tokenMap ContentFormat.Html = some t
      ∧ (ContentFormat.Html, t) ∈ ContentFormat.tokenMap
      ∧ ((∀ p ∈ ContentFormat.tokenMap, p.2 ≠ ("")) → t ≠ ("")) :=
  c7_projector_total ContentFormat.tokenMap ContentFormat.Html (by decide)

/-- Claim C8: token uniqueness is not validated; with `Dup { A => "x", B => "x" }`
the parser resolves "x" to the first-declared variant `A` (silent shadowing),
never to `B`, while the projector still maps each variant to its own declared
token. -/
theorem c8_duplicate_token_shadowing :
    from_str Error.Parse dupName Dup.tokenMap ("x") = Except.ok Dup.A
    ∧ from_str Error.Parse dupName Dup.tokenMap ("x") ≠ Except.ok Dup.B
    ∧ as_ref Dup.tokenMap Dup.A = some ("x")
    ∧ as_ref Dup.tokenMap Dup.B = some ("x") := by decide

/-- Claim C9: reverse round-trip — for every token declared in the map of a
bound enum (each variant declared once, as the pair list is built alongside
the enum), parsing the token and projecting the resulting variant yields the
token back, even when tokens are duplicated across variants. -/
theorem c9_reverse_round_trip {α ε : Type} [DecidableEq α] (mkErr : String → ε)
    (name : String) (tm : List (α × String)) (t : String)
    (hmem : t ∈ tm.map Prod.snd)
    (hnodup : (tm.map Prod.fst).Nodup) :
    ∃ v, from_str mkErr name tm t = Except.ok v ∧ as_ref tm v = some t := by
  induction tm with
  | nil => simp at hmem
  | cons p rest ih =>
    rw [List.map_cons, List.nodup_cons] at hnodup
    by_cases hp : p.2 = t
    · refine ⟨p.1, from_str_cons_pos hp, ?_⟩
      rw [as_ref_cons_pos rfl, hp]
    · have hmem2 : t ∈ rest.map Prod.snd := by
        rcases List.mem_map.mp hmem with ⟨q, hq, hqt⟩
        cases hq with
        | head => exact absurd hqt hp
        | tail _ hq2 => exact List.mem_map.mpr ⟨q, hq2, hqt⟩
      obtain ⟨v, h1, h2⟩ := ih hmem2 hnodup.2
      have hv : v ∈ rest.map Prod.fst := by
        obtain ⟨q, hq, _, hqv⟩ := from_str_ok h1
        exact List.mem_map.mpr ⟨q, hq, hqv⟩
      have hpv : p.1 ≠ v := fun he => hnodup.1 (he ▸ hv)
      exact ⟨v, by rw [from_str_cons_neg hp]; exact h1,
        by rw [as_ref_cons_neg hpv]; exact h2⟩

/-- Claim C9 witness: instantiated on the duplicated-token map
`Dup { A => "x", B => "x" }` at the declared token "x": parsing yields the
first-declared variant, which still projects back to "x". -/
theorem c9_reverse_round_trip_witness :
    ∃ v, from_str Error.Parse dupName Dup.tokenMap ("x") = Except.ok v
      ∧ as_ref Dup.tokenMap v = some ("x") :=
  c9_reverse_round_trip Error.Parse dupName Dup.tokenMap ("x") (by decide) (by decide)

/-- Claim C10: a failed deserialization reports the trimmed input, not the
original wire string: the adapter trims before parsing, so deserializing
" pdf " produces an unknown-field error whose embedded parse message names
`pdf` without the surrounding whitespace. -/
theorem c10_error_embeds_trimmed_input :
    visit_str Error.Parse Error.display cfName ContentFormat.tokenMap
        ContentFormat.VARIANTS (" pdf ")
      = Except.error (SerdeError.unknownField
          ("Parse(\"`pdf` is not a known `ContentFormat` variant\")")
          (["Markdown", "Html"]))
    ∧ rustTrim (" pdf ") = ("pdf") := by decide
